import Mathlib

/-!
# Verification of the `ctc-import.py` reconciliation engine

Shallow embedding of `src/ctc-import.py`: the Booking Importer
(`EnterBacInvoices`), the Payment Reconciler (`ProcessStripePayments`) and
the account-routing helpers (`GetMembershipAcct`, `GetEventAcct`,
`RecordStripeFee`).  The GnuCash ledger is modelled as an explicit record of
invoices, transactions, payments and customers; CSV rows are structures of
string fields, exactly the values `csv.DictReader` hands to the Python code.
Python library primitives that the script calls (`date.fromisoformat`,
`datetime.strptime`, and the two `re.sub` extractions of the membership
branch) are supplied through an `Env` parameter; everything else is
translated directly from the source.
-/

/-! ## String utilities (Python `str` semantics used by the script) -/

/-- `p` is a prefix of `s` (character lists). -/
def isPrefixChars : List Char → List Char → Bool
  | [], _ => true
  | _ :: _, [] => false
  | p :: ps, c :: cs => p = c && isPrefixChars ps cs

/-- `needle` occurs as a contiguous substring of `hay`.  This is the
semantics of Python `re.search(pat, hay)` when `pat` has no regex
metacharacters. -/
def containsChars (needle : List Char) : List Char → Bool
  | [] => isPrefixChars needle []
  | c :: cs => isPrefixChars needle (c :: cs) || containsChars needle cs

/-- Case-sensitive substring test, as in `re.search('Junior', detail)`. -/
def containsSub (needle s : String) : Bool :=
  containsChars needle.data s.data

/-- Case-insensitive substring test, as in `re.search(k, s, re.IGNORECASE)`. -/
def containsCI (needle s : String) : Bool :=
  containsChars (needle.data.map Char.toLower) (s.data.map Char.toLower)

/-- Python `s.startswith(p)`. -/
def pyStartsWith (p s : String) : Bool :=
  isPrefixChars p.data s.data

/-- Python `s.split(' ')[0]`: the prefix of `s` before the first space. -/
def firstField (s : String) : String :=
  ⟨s.data.takeWhile (fun c => c ≠ ' ')⟩

/-- Python `a or b` on strings: `a` unless it is empty (falsy). -/
def pyOr (a b : String) : String :=
  if a = "" then b else a

/-- Python `s == 0` for a `str` `s`: comparing a string with an `int` is
never true in Python, whatever the string's digits are.  This embeds the
guard `if (amount == 0): continue` of `ProcessStripePayments`, where
`amount` is the raw CSV string. -/
def pyStrEqIntZero (_s : String) : Bool :=
  false

/-! ## `decimal.Decimal` as far as the script observes it

The importer builds `Decimal(row['Court Fee'])` and only ever asks
`== 0` and `> 0`.  We parse the decimal literal to a sign and a mantissa
(the digit string read as a natural number); the two observations factor
through that pair.  A string `Decimal` cannot parse yields `none`
(Python raises `InvalidOperation`). -/

/-- Parse a decimal literal: optional sign, digits, optional `.` digits.
Returns `(isNegative, mantissa)` where `mantissa` is all digits read as a
natural number (zero iff the value is zero). -/
def pyDecimal (s : String) : Option (Bool × Nat) :=
  let signAndRest : Bool × List Char :=
    match s.data with
    | '-' :: r => (true, r)
    | '+' :: r => (false, r)
    | r => (false, r)
  let intPart := signAndRest.2.takeWhile (fun c => c ≠ '.')
  let rest := signAndRest.2.drop intPart.length
  let fracPart : Option (List Char) :=
    match rest with
    | [] => none
    | _ :: tail => some tail
  let frac := fracPart.getD []
  if intPart.all Char.isDigit && frac.all Char.isDigit &&
      !(intPart.isEmpty && frac.isEmpty) then
    some (signAndRest.1,
      (intPart ++ frac).foldl (fun acc c => acc * 10 + (c.toNat - '0'.toNat)) 0)
  else
    none

/-- `Decimal(s) == 0`. -/
def decimalIsZero (v : Bool × Nat) : Bool :=
  v.2 = 0

/-- `Decimal(s) > 0`. -/
def decimalIsPos (v : Bool × Nat) : Bool :=
  !v.1 && v.2 ≠ 0

/-! ## Constants of the script -/

def COURT_BOOKING : String := "Court booking at Coburg Tennis Club"

def MEMBERSHIP_MARK : String := "Coburg Tennis Club:"

def REFUND_MARK : String := "REFUND FOR CHARGE"

def EVENT_MARK : String := "Coburg Tennis Club "

def NO_NAME_ENTRY : String := "NoName"

/-! ## Chart-of-accounts paths (the hardcoded `lookup_by_name` chains) -/

abbrev AcctPath := List String

def checkingAcct : AcctPath := ["Assets", "Current Assets", "Checking Account"]

def receivablesAcct : AcctPath := ["Assets", "Accounts Receivable"]

def stripeAcct : AcctPath := ["Assets", "Current Assets", "Stripe Account"]

def courtHireAcct : AcctPath := ["Income", "Casual Hire", "Court Hire"]

def lightHireAcct : AcctPath := ["Income", "Casual Hire", "Hire Light Fees"]

def stripeFeeAcct : AcctPath := ["Expenses", "Stripe Fee"]

/-- `GetMembershipAcct` (lines 473-489): **case-sensitive** `re.search`
keyword chain Junior, Social, Student, Senior, with fallback Individual. -/
def GetMembershipAcct (membership_detail : String) : AcctPath :=
  if containsSub "Junior" membership_detail then
    ["Income", "Memberships", "Junior"]
  else if containsSub "Social" membership_detail then
    ["Income", "Memberships", "Social"]
  else if containsSub "Student" membership_detail then
    ["Income", "Memberships", "Student"]
  else if containsSub "Senior" membership_detail then
    ["Income", "Memberships", "Senior"]
  else
    ["Income", "Memberships", "Individual"]

/-- Modelled from the spec: membership routing as the spec words it — a
**case-insensitive** keyword search in the same order with the same
fallback.  Used only to compare the spec's wording with
`GetMembershipAcct` as translated from the source. -/
def GetMembershipAcctSpec (membership_detail : String) : AcctPath :=
  if containsCI "Junior" membership_detail then
    ["Income", "Memberships", "Junior"]
  else if containsCI "Social" membership_detail then
    ["Income", "Memberships", "Social"]
  else if containsCI "Student" membership_detail then
    ["Income", "Memberships", "Student"]
  else if containsCI "Senior" membership_detail then
    ["Income", "Memberships", "Senior"]
  else
    ["Income", "Memberships", "Individual"]

/-- `GetEventAcct` (lines 491-509): case-insensitive `re.search` keyword
chain with fallback Fundraising/Club Events. -/
def GetEventAcct (event_detail : String) : AcctPath :=
  if containsCI "OpenCourtSessions" event_detail then
    ["Income", "Events", "Open Court Sessions"]
  else if containsCI "MensSocial" event_detail then
    ["Income", "Events", "MensSocial"]
  else if containsCI "Girl" event_detail then
    ["Income", "Events", "Girl Lets Play"]
  else if containsCI "Club Champ" event_detail then
    ["Income", "Events", "Club Championships"]
  else if containsCI "Bingo" event_detail then
    ["Income", "Fundraising", "Bingo"]
  else
    ["Income", "Fundraising", "Club Events"]

/-! ## `re.sub(REFUND_PREFIX + ' \((.*)\)', '\\1', description)`

The pattern is the literal `"REFUND FOR CHARGE ("`, a greedy group, and a
literal `")"`.  `re.sub` replaces the leftmost match — the literal, then
everything up to the *last* `')'` of the string (greedy `.*`) — by the
group, and returns the input unchanged when the pattern does not occur. -/

/-- Split `cs` as `body ++ [')'] ++ suffix` at the **last** `')'`. -/
def splitLastParen (cs : List Char) : Option (List Char × List Char) :=
  let rev := cs.reverse
  let suffixRev := rev.takeWhile (fun c => c ≠ ')')
  match rev.drop suffixRev.length with
  | ')' :: bodyRev => some (bodyRev.reverse, suffixRev.reverse)
  | _ => none

/-- One left-to-right scan: at the first position where the literal
`"REFUND FOR CHARGE ("` matches and a closing `')'` follows, replace the
matched span by the group contents. -/
def reSubRefundAux : List Char → List Char
  | [] => []
  | c :: cs =>
    if isPrefixChars ("REFUND FOR CHARGE (".data) (c :: cs) then
      match splitLastParen ((c :: cs).drop ("REFUND FOR CHARGE (".data.length)) with
      | some (body, suffix) => body ++ suffix
      | none => c :: reSubRefundAux cs
    else
      c :: reSubRefundAux cs

/-- `refund_item` extraction (line 312). -/
def extractRefundItem (description : String) : String :=
  ⟨reSubRefundAux description.data⟩

/-! ## Data model -/

/-- The Python exceptions the script can raise on the modelled paths. -/
inductive PyErr where
  | nameError (var : String)
  | keyError (key : String)
  | valueError
  | typeError
  | decimalError
deriving DecidableEq

/-- A Clubspark booking row: the CSV columns the script reads, plus the
two annotations (`row['Invoice']`, `row['Allocated']`) written by the
importer.  `none` models the dict key being absent (access raises
`KeyError`). -/
structure CsRow where
  playerFirst : String
  playerLast : String
  bookedDate : String
  courtFee : String
  lightFee : String
  totalFee : String
  bookingDate : String
  bookingTime : String
  invoice : Option Nat := none
  allocated : Option Bool := none
deriving DecidableEq

/-- An invoice entry: description, unit price (the raw string handed to
`GncNumeric`), and income account.  Quantity is always `GncNumeric(1)`. -/
structure GEntry where
  descr : String
  price : String
  acct : AcctPath
deriving DecidableEq

/-- A ledger invoice as the script builds it. -/
structure GInvoice where
  id : Nat
  customer : String
  creditNote : Bool := false
  entries : List GEntry := []
  postedTo : Option (AcctPath × String) := none
deriving DecidableEq

/-- A transaction split: account, raw value string, and whether
`.neg()` was applied. -/
structure GSplit where
  acct : AcctPath
  value : String
  negated : Bool := false
deriving DecidableEq

/-- A ledger transaction. -/
structure GTxn where
  splits : List GSplit := []
  descr : String := ""
  dateStr : String := ""
deriving DecidableEq

/-- A recorded `ApplyPayment` call: which invoice, for what amount. -/
structure Payment where
  invoiceId : Nat
  amount : String
  dateStr : String
deriving DecidableEq

/-- A ledger customer. -/
structure GCust where
  name : String
  email : String := ""
deriving DecidableEq

/-- The ledger: the observable effect surface of the script. -/
structure Ledger where
  invoices : List GInvoice := []
  txns : List GTxn := []
  payments : List Payment := []
  customers : List GCust := []
  nextInvoiceId : Nat := 0
deriving DecidableEq

/-- The allocation index `cs_map`: player name → ordered bucket of rows,
in dict insertion order. -/
abbrev CsMap := List (String × List CsRow)

/-- `cs_map[k]` lookup. -/
def mapLookup : CsMap → String → Option (List CsRow)
  | [], _ => none
  | (k, l) :: rest, key => if k = key then some l else mapLookup rest key

/-- Append a row to bucket `key`, creating the bucket at the end of the
dict when absent (Python dict insertion order). -/
def mapAppendRow : CsMap → String → CsRow → CsMap
  | [], key, r => [(key, [r])]
  | (k, l) :: rest, key, r =>
    if k = key then (k, l ++ [r]) :: rest
    else (k, l) :: mapAppendRow rest key r

/-- Replace the last element of a list, when there is one. -/
def updLast {α : Type} : List α → (α → α) → List α
  | [], _ => []
  | [a], f => [f a]
  | a :: b :: rest, f => a :: updLast (b :: rest) f

/-- Mutate the last row of bucket `key` in place (the row the importer
just appended). -/
def mapUpdateLast : CsMap → String → (CsRow → CsRow) → CsMap
  | [], _, _ => []
  | (k, l) :: rest, key, f =>
    if k = key then (k, updLast l f) :: rest
    else (k, l) :: mapUpdateLast rest key f

/-- Overwrite position `i` of bucket `key` (in-place mutation of a row the
reconciler found while scanning). -/
def mapSetRow : CsMap → String → Nat → CsRow → CsMap
  | [], _, _, _ => []
  | (k, l) :: rest, key, i, r =>
    if k = key then (k, l.set i r) :: rest
    else (k, l) :: mapSetRow rest key i r

/-- All rows of the index, in bucket order. -/
def allRows : CsMap → List CsRow
  | [] => []
  | (_, l) :: rest => l ++ allRows rest

/-- Python library primitives the script calls, supplied as parameters:
`date.fromisoformat`, the two `datetime.strptime` calls (session
description format and booking date+time format, both returning an
abstract comparable timestamp), and the `re.sub` extractions of the
membership branch.  `none` models the library raising `ValueError`. -/
structure Env where
  fromIso : String → Option String
  strptimeSession : String → Option Nat
  strptimeBooking : String → Option Nat
  reSubMembershipItem : String → String
  reSubCustomerName : String → String
  reSubCustomerEmail : String → String

/-! ## Booking Importer (`EnterBacInvoices`, lines 58-114) -/

/-- Importer state: the index under construction, the ledger, and the
diagnostics printed so far. -/
structure ImpState where
  csMap : CsMap
  ledger : Ledger
  logs : List String := []
deriving DecidableEq

/-- One iteration of the `for row in cs_csv` loop.  Order as in the
source: bucket the row, parse the booked date, parse the fees, skip when
both fees are zero, otherwise create and post the invoice and annotate
the (just-appended) row with the invoice id and `Allocated=False`. -/
def enterBacStep (env : Env) (st : ImpState) (row : CsRow) : ImpState × Option PyErr :=
  let player_name := row.playerFirst ++ " " ++ row.playerLast
  if player_name = "" then
    -- dead code: `player_name` always holds the separating space; the
    -- print concatenates a str with a dict and would raise `TypeError`
    (st, some PyErr.typeError)
  else
    let st1 : ImpState := { st with csMap := mapAppendRow st.csMap player_name row }
    match env.fromIso row.bookedDate with
    | none => (st1, some PyErr.valueError)
    | some txn_date =>
      match pyDecimal row.courtFee with
      | none => (st1, some PyErr.decimalError)
      | some court_hire =>
        match pyDecimal row.lightFee with
        | none => (st1, some PyErr.decimalError)
        | some light_hire =>
          if decimalIsZero court_hire && decimalIsZero light_hire then
            (st1, none)
          else
            let invoice_id := st1.ledger.nextInvoiceId
            let entries :=
              (if decimalIsPos court_hire then
                [{ descr := "Court Hire", price := row.courtFee,
                   acct := courtHireAcct }]
               else []) ++
              (if decimalIsPos light_hire then
                [{ descr := "Light Hire", price := row.lightFee,
                   acct := lightHireAcct }]
               else [])
            let inv : GInvoice :=
              { id := invoice_id, customer := "Book A Court",
                entries := entries,
                postedTo := some (receivablesAcct, txn_date) }
            let led :=
              { st1.ledger with
                  invoices := st1.ledger.invoices ++ [inv],
                  nextInvoiceId := invoice_id + 1 }
            let annotated := mapUpdateLast st1.csMap player_name
              (fun r => { r with invoice := some invoice_id,
                                 allocated := some false })
            ({ st1 with csMap := annotated, ledger := led }, none)

/-- The importer loop: processes rows in order, stopping at the first
uncaught exception (prior ledger commits are kept). -/
def runImport (env : Env) : List CsRow → ImpState → ImpState × Option PyErr
  | [], st => (st, none)
  | row :: rest, st =>
    match enterBacStep env st row with
    | (st1, none) => runImport env rest st1
    | (st1, some e) => (st1, some e)

/-- `EnterBacInvoices(cs_csv, book)`: starts from the ledger `led` with
`cs_map = {NO_NAME_ENTRY: []}`. -/
def EnterBacInvoices (env : Env) (rows : List CsRow) (led : Ledger) :
    ImpState × Option PyErr :=
  runImport env rows { csMap := [(NO_NAME_ENTRY, [])], ledger := led }

/-! ## Ledger helpers shared by the reconciler (lines 116-214) -/

/-- `RecordStripeFee(book, trans, net, fee)` (lines 201-214): when `fee`
is falsy (the empty string) return the transaction unchanged; otherwise
set every split on the account named `Stripe Account` to `net` and append
a fee split against the Stripe Fee expense account. -/
def RecordStripeFee (trans : GTxn) (net fee : String) : GTxn :=
  if fee = "" then trans
  else
    { trans with
        splits :=
          (trans.splits.map (fun sp =>
            if sp.acct.getLast? = some "Stripe Account" then
              { sp with value := net, negated := false }
            else sp)) ++
          [{ acct := stripeFeeAcct, value := fee }] }

/-- `MakeStripePayment` (lines 158-177): a transaction with a single
split of `amount` on the Stripe clearing account.  (The `fee`/`net`
arguments of the Python function are unused by its body.) -/
def MakeStripePayment (amount description txn_date : String) : GTxn :=
  { splits := [{ acct := stripeAcct, value := amount }],
    descr := description, dateStr := txn_date }

/-- `DoStripeTransfer` (lines 179-198): two-sided transfer from the
Stripe clearing account to the checking account. -/
def DoStripeTransfer (amount txn_date : String) : GTxn :=
  { splits := [{ acct := stripeAcct, value := amount },
               { acct := checkingAcct, value := amount, negated := true }],
    descr := "Stripe Payout", dateStr := txn_date }

/-- `GetCustomer` (lines 116-131): exact name lookup, creating the
customer when absent. -/
def GetCustomer (led : Ledger) (name email : String) : GCust × Ledger :=
  match led.customers.find? (fun c => c.name = name) with
  | some c => (c, led)
  | none =>
    let c : GCust := { name := name, email := email }
    (c, { led with customers := led.customers ++ [c] })

/-- `CreateInvoiceAndPayment` (lines 133-155): invoice with one entry,
posted to receivables; then a Stripe payment transaction applied to it,
and the fee recorded on that transaction. -/
def CreateInvoiceAndPayment (led : Ledger) (customer : GCust) (acct : AcctPath)
    (amount fee net description txn_date : String) : Ledger :=
  let inv : GInvoice :=
    { id := led.nextInvoiceId, customer := customer.name,
      entries := [{ descr := description, price := amount, acct := acct }],
      postedTo := some (receivablesAcct, txn_date) }
  let trans := RecordStripeFee (MakeStripePayment amount description txn_date) net fee
  { led with
      invoices := led.invoices ++ [inv],
      nextInvoiceId := led.nextInvoiceId + 1,
      txns := led.txns ++ [trans],
      payments := led.payments ++
        [{ invoiceId := inv.id, amount := amount, dateStr := txn_date }] }

/-! ## Payment Reconciler (`ProcessStripePayments`, lines 217-436) -/

/-- A Stripe settlement row: the CSV columns the script reads. -/
structure StripeRow where
  emailMeta : String := ""
  firstName : String := ""
  firstName2 : String := ""
  firstName3 : String := ""
  lastName : String := ""
  lastName2 : String := ""
  surname : String := ""
  availableOn : String := ""
  amount : String := ""
  fee : String := ""
  net : String := ""
  description : String := ""
  txnType : String := ""
  sessionMeta : String := ""
  membershipMeta : String := ""
  categoryMeta : String := ""
  courseNameMeta : String := ""
deriving DecidableEq

/-- The name the reconciler infers for a settlement row (lines 233-248):
first non-empty of the first-name columns, first non-empty of the
last-name columns, joined by a space.  The `NoName` fallback guard is dead
(the joined string always holds the space). -/
def inferPlayerName (row : StripeRow) : String :=
  let first_name := pyOr row.firstName (pyOr row.firstName2 row.firstName3)
  let last_name := pyOr row.lastName (pyOr row.lastName2 row.surname)
  let player_name := first_name ++ " " ++ last_name
  if player_name = "" then NO_NAME_ENTRY else player_name

/-- Reconciler state.  `bound` is the `player_list` local: the bucket key
it currently aliases, `none` while the variable is still unbound.
`playerRow` is the `player_row` loop variable, which in Python survives
across iterations of the outer row loop. -/
structure RecState where
  csMap : CsMap
  ledger : Ledger
  bound : Option String := none
  playerRow : Option CsRow := none
  logs : List String := []
deriving DecidableEq

/-- Outcome of the court-payment scan over `player_list`
(lines 289-297). -/
inductive ScanOutcome where
  | err (e : PyErr) (last : Option CsRow)
  | found (idx : Nat) (r : CsRow)
  | notFound (last : Option CsRow)
deriving DecidableEq

/-- The `for player_row in player_list` scan: first row whose
`Total Fee` equals the payment amount and whose `Allocated` flag is
false.  Reading a missing `Allocated` key raises `KeyError`; `last`
tracks the binding of the loop variable. -/
def scanBucket (amount : String) : List CsRow → Nat → Option CsRow → ScanOutcome
  | [], _, last => ScanOutcome.notFound last
  | r :: rest, i, _ =>
    if r.totalFee = amount then
      match r.allocated with
      | none => ScanOutcome.err (PyErr.keyError "Allocated") (some r)
      | some true => scanBucket amount rest (i + 1) (some r)
      | some false => ScanOutcome.found i r
    else scanBucket amount rest (i + 1) (some r)

/-- Court-payment handler (lines 283-300): create the payment
transaction, then scan the bucket `player_list` aliases; on a match,
apply the payment to the row's invoice, record the fee on the
transaction, and set the row's `Allocated` flag; otherwise print the
unresolved-allocation diagnostic.  An unbound `player_list` or
`player_row` raises `NameError`. -/
def courtBranch (st : RecState) (row : StripeRow) (player_name txn_date : String) :
    RecState × Option PyErr :=
  let trans := MakeStripePayment row.amount row.description txn_date
  let led := { st.ledger with txns := st.ledger.txns ++ [trans] }
  let st1 := { st with ledger := led }
  match st.bound with
  | none => (st1, some (PyErr.nameError "player_list"))
  | some k =>
    let player_list := (mapLookup st.csMap k).getD []
    match scanBucket row.amount player_list 0 st.playerRow with
    | ScanOutcome.err e last => ({ st1 with playerRow := last }, some e)
    | ScanOutcome.found i r =>
      match r.invoice with
      | none => ({ st1 with playerRow := some r }, some (PyErr.keyError "Invoice"))
      | some invId =>
        let led2 :=
          { led with
              payments := led.payments ++
                [{ invoiceId := invId, amount := row.amount, dateStr := txn_date }],
              txns := updLast led.txns (fun t => RecordStripeFee t row.net row.fee) }
        let r' := { r with allocated := some true }
        ({ st1 with
            ledger := led2,
            csMap := mapSetRow st.csMap k i r',
            playerRow := some r' }, none)
    | ScanOutcome.notFound last =>
      match last with
      | none => ({ st1 with playerRow := none }, some (PyErr.nameError "player_row"))
      | some pr =>
        ({ st1 with
            playerRow := some pr,
            logs := st1.logs ++
              ["Unable to allocate payment to invoice :" ++ pr.totalFee ++
                player_name ++ "\n"] }, none)

/-- The search of the court-booking refund branch (lines 326-336): walk
every bucket and row; a row whose parsed booking timestamp equals the
refund's session timestamp and whose `Total Fee` equals the amount
overwrites the result (the last match wins).  The inner `strptime` is not
guarded by `try`, so an unparsable booking date raises `ValueError`. -/
def refundSearch (env : Env) (dt : Nat) (amount : String) :
    List CsRow → (Option String × Option String) →
    Except PyErr (Option String × Option String)
  | [], acc => Except.ok acc
  | r :: rest, acc =>
    match env.strptimeBooking (r.bookingDate ++ " " ++ r.bookingTime) with
    | none => Except.error PyErr.valueError
    | some cdt =>
      if cdt = dt && r.totalFee = amount then
        refundSearch env dt amount rest (some r.courtFee, some r.lightFee)
      else
        refundSearch env dt amount rest acc

/-- Python truthiness of the `court_fee`/`light_fee` locals in the refund
branch: `None` and the empty string are falsy, any other string (even
`"0"`) is truthy. -/
def pyTruthy : Option String → Bool
  | none => false
  | some s => s ≠ ""

/-- Court-booking refund handler (lines 314-382): parse the session
description (failure caught, treated as unknown), search the buckets,
fall back to attributing the whole amount to court fee, create and post a
credit note with a court line and a light line for the truthy fees, then
apply a refund payment to it and record the fee. -/
def refundCourtBranch (env : Env) (st : RecState) (row : StripeRow)
    (txn_date : String) : RecState × Option PyErr :=
  let searchRes : Except PyErr (Option String × Option String) :=
    match env.strptimeSession row.sessionMeta with
    | none => Except.ok (none, none)
    | some dt => refundSearch env dt row.amount (allRows st.csMap) (none, none)
  match searchRes with
  | Except.error e => (st, some e)
  | Except.ok fees =>
    let court_fee := if fees.1 = none && fees.2 = none then some row.amount else fees.1
    let light_fee := fees.2
    let invoice_id := st.ledger.nextInvoiceId
    let entries :=
      (if pyTruthy court_fee then
        [{ descr := "Court Hire Refund", price := court_fee.getD "",
           acct := courtHireAcct }]
       else []) ++
      (if pyTruthy light_fee then
        [{ descr := "Light Hire Refund", price := light_fee.getD "",
           acct := lightHireAcct }]
       else [])
    let inv : GInvoice :=
      { id := invoice_id, customer := "Book A Court", creditNote := true,
        entries := entries, postedTo := some (receivablesAcct, txn_date) }
    let trans : GTxn :=
      { splits := [{ acct := stripeAcct, value := row.amount }],
        descr := "Book A Court Refund", dateStr := txn_date }
    let led :=
      { st.ledger with
          invoices := st.ledger.invoices ++ [inv],
          nextInvoiceId := invoice_id + 1,
          txns := updLast (st.ledger.txns ++ [trans])
            (fun t => RecordStripeFee t row.net row.fee),
          payments := st.ledger.payments ++
            [{ invoiceId := invoice_id, amount := row.amount, dateStr := txn_date }] }
    ({ st with ledger := led }, none)

/-- Non-court refund handler (lines 383-405): route the fragment to a
membership or event account and post a plain two-sided refund
transaction; no invoice, credit note or payment. -/
def refundOtherBranch (st : RecState) (row : StripeRow) (refund_item txn_date : String) :
    RecState × Option PyErr :=
  let refund_acct :=
    if containsSub MEMBERSHIP_MARK refund_item then GetMembershipAcct refund_item
    else GetEventAcct refund_item
  let trans : GTxn :=
    { splits := [{ acct := stripeAcct, value := row.amount },
                 { acct := refund_acct, value := row.amount, negated := true }],
      descr := "Refund", dateStr := txn_date }
  ({ st with ledger := { st.ledger with txns := st.ledger.txns ++ [trans] } }, none)

/-- Membership-payment handler (lines 407-422). -/
def membershipBranch (env : Env) (st : RecState) (row : StripeRow)
    (txn_date : String) : RecState × Option PyErr :=
  let membership_item := env.reSubMembershipItem row.description
  let membership_detail := row.membershipMeta
  let customer_name := env.reSubCustomerName membership_detail
  let customer_email := env.reSubCustomerEmail membership_detail
  let (customer, led1) := GetCustomer st.ledger customer_name customer_email
  let membership_acct := GetMembershipAcct membership_detail
  let led2 := CreateInvoiceAndPayment led1 customer membership_acct
    row.amount row.fee row.net membership_item txn_date
  ({ st with ledger := led2 }, none)

/-- Event-payment handler (lines 424-436). -/
def eventBranch (st : RecState) (row : StripeRow)
    (player_name txn_date : String) : RecState × Option PyErr :=
  let event_detail :=
    if row.categoryMeta = "Custom" then row.courseNameMeta else row.categoryMeta
  let (customer, led1) := GetCustomer st.ledger player_name row.emailMeta
  let event_acct := GetEventAcct event_detail
  let led2 := CreateInvoiceAndPayment led1 customer event_acct
    row.amount row.fee row.net event_detail txn_date
  ({ st with ledger := led2 }, none)

/-- One iteration of the `for row in stripe_csv` loop (lines 223-436):
rebind `player_list` when the inferred name is a bucket key, parse the
settlement date, apply the (vacuous) zero-amount skip, then dispatch on
the description. -/
def processStripeRow (env : Env) (st : RecState) (row : StripeRow) :
    RecState × Option PyErr :=
  let player_name := inferPlayerName row
  let st0 :=
    match mapLookup st.csMap player_name with
    | some _ => { st with bound := some player_name }
    | none => st
  match env.fromIso (firstField row.availableOn) with
  | none => (st0, some PyErr.valueError)
  | some txn_date =>
    if pyStrEqIntZero row.amount then (st0, none)
    else if row.description = COURT_BOOKING then
      courtBranch st0 row player_name txn_date
    else if row.txnType = "payout" then
      ({ st0 with ledger :=
          { st0.ledger with
              txns := st0.ledger.txns ++ [DoStripeTransfer row.amount txn_date] } },
        none)
    else if pyStartsWith REFUND_MARK row.description then
      let refund_item := extractRefundItem row.description
      if refund_item = COURT_BOOKING then
        refundCourtBranch env st0 row txn_date
      else
        refundOtherBranch st0 row refund_item txn_date
    else if pyStartsWith MEMBERSHIP_MARK row.description then
      membershipBranch env st0 row txn_date
    else if pyStartsWith EVENT_MARK row.description then
      eventBranch st0 row player_name txn_date
    else
      (st0, none)

/-- The reconciler loop, stopping at the first uncaught exception. -/
def ProcessStripePayments (env : Env) : List StripeRow → RecState → RecState × Option PyErr
  | [], st => (st, none)
  | row :: rest, st =>
    match processStripeRow env st row with
    | (st1, none) => ProcessStripePayments env rest st1
    | (st1, some e) => (st1, some e)

/-- The two phases run by the script's `__main__` block: import the
booking rows into `led`, then reconcile the settlement rows against the
produced index. -/
def runBoth (env : Env) (csRows : List CsRow) (stripeRows : List StripeRow)
    (led : Ledger) : RecState × Option PyErr :=
  let imp := EnterBacInvoices env csRows led
  ProcessStripePayments env stripeRows
    { csMap := imp.1.csMap, ledger := imp.1.ledger }

/-! ## Counting payments and allocations

`rowCount m i` — how many index rows carry invoice id `i`;
`allocCount m i` — how many of those are marked allocated;
`paymentCount ps i` — how many `ApplyPayment` calls hit invoice `i`. -/

def invEq (i : Nat) (r : CsRow) : Bool :=
  r.invoice = some i

def invAllocEq (i : Nat) (r : CsRow) : Bool :=
  r.invoice = some i && r.allocated = some true

def rowCount (m : CsMap) (i : Nat) : Nat :=
  (allRows m).countP (invEq i)

def allocCount (m : CsMap) (i : Nat) : Nat :=
  (allRows m).countP (invAllocEq i)

def paymentCount (ps : List Payment) (i : Nat) : Nat :=
  ps.countP (fun p => p.invoiceId = i)

/-- `i` is the invoice id of some booking row of the index. -/
def hasRowInvoice (m : CsMap) (i : Nat) : Bool :=
  (allRows m).any (invEq i)

/-- The exclusive-allocation invariant maintained across both phases:
payments to a booking row's invoice are covered by its allocation flag,
invoice ids are issued to at most one row each, and no row or payment
refers to an id the ledger has not issued yet. -/
def ExclInv (m : CsMap) (led : Ledger) : Prop :=
  (∀ i, 0 < rowCount m i → paymentCount led.payments i ≤ allocCount m i) ∧
  (∀ i, rowCount m i ≤ 1) ∧
  (∀ i, led.nextInvoiceId ≤ i → rowCount m i = 0) ∧
  (∀ i, led.nextInvoiceId ≤ i → paymentCount led.payments i = 0)

/-! ## Counting lemmas for the index operations -/

theorem updLast_concat {α : Type} (l : List α) (a : α) (f : α → α) :
    updLast (l ++ [a]) f = l ++ [f a] := by
  induction l with
  | nil => rfl
  | cons b t ih =>
    cases t with
    | nil => rfl
    | cons c t2 =>
      show b :: updLast ((c :: t2) ++ [a]) f = b :: ((c :: t2) ++ [f a])
      exact congrArg (b :: ·) ih

theorem mapUpdateLast_mapAppendRow (m : CsMap) (k : String) (r : CsRow)
    (f : CsRow → CsRow) :
    mapUpdateLast (mapAppendRow m k r) k f = mapAppendRow m k (f r) := by
  induction m with
  | nil => simp [mapAppendRow, mapUpdateLast, updLast]
  | cons kv rest ih =>
    by_cases h : kv.1 = k
    · simp [mapAppendRow, mapUpdateLast, h, updLast_concat]
    · simp [mapAppendRow, mapUpdateLast, h, ih]

theorem countP_allRows_mapAppendRow (m : CsMap) (k : String) (r : CsRow)
    (p : CsRow → Bool) :
    (allRows (mapAppendRow m k r)).countP p =
      (allRows m).countP p + (if p r then 1 else 0) := by
  induction m with
  | nil => simp [mapAppendRow, allRows, List.countP_cons]
  | cons kv rest ih =>
    by_cases h : kv.1 = k
    · simp [mapAppendRow, h, allRows, List.countP_append, List.countP_cons]
      omega
    · simp [mapAppendRow, h, allRows, List.countP_append, ih]
      omega

theorem countP_set_list (p : CsRow → Bool) :
    ∀ (l : List CsRow) (i : Nat) (a b : CsRow), l[i]? = some b →
      (l.set i a).countP p + (if p b then 1 else 0) =
        l.countP p + (if p a then 1 else 0)
  | [], i, _, _, h => by simp at h
  | c :: t, 0, a, b, h => by
    simp at h
    subst h
    simp [List.set, List.countP_cons]
    omega
  | c :: t, i + 1, a, b, h => by
    simp at h
    have ih := countP_set_list p t i a b h
    simp [List.set, List.countP_cons]
    omega

theorem countP_allRows_mapSetRow (p : CsRow → Bool) :
    ∀ (m : CsMap) (k : String) (l : List CsRow) (i : Nat) (a b : CsRow),
      mapLookup m k = some l → l[i]? = some b →
      (allRows (mapSetRow m k i a)).countP p + (if p b then 1 else 0) =
        (allRows m).countP p + (if p a then 1 else 0)
  | [], k, l, i, a, b, hl, _ => by simp [mapLookup] at hl
  | kv :: rest, k, l, i, a, b, hl, hb => by
    by_cases h : kv.1 = k
    · simp [mapLookup, h] at hl
      subst hl
      simp [mapSetRow, h, allRows, List.countP_append]
      have := countP_set_list p _ i a b hb
      omega
    · simp [mapLookup, h] at hl
      have ih := countP_allRows_mapSetRow p rest k l i a b hl hb
      simp [mapSetRow, h, allRows, List.countP_append]
      omega

theorem mem_allRows_of_lookup :
    ∀ (m : CsMap) (k : String) (l : List CsRow) (r : CsRow),
      mapLookup m k = some l → r ∈ l → r ∈ allRows m
  | [], k, l, r, hl, _ => by simp [mapLookup] at hl
  | kv :: rest, k, l, r, hl, hr => by
    by_cases h : kv.1 = k
    · simp [mapLookup, h] at hl
      subst hl
      simp [allRows]
      exact Or.inl hr
    · simp [mapLookup, h] at hl
      simp [allRows]
      exact Or.inr (mem_allRows_of_lookup rest k l r hl hr)

theorem paymentCount_append (ps : List Payment) (q : Payment) (i : Nat) :
    paymentCount (ps ++ [q]) i =
      paymentCount ps i + (if q.invoiceId = i then 1 else 0) := by
  simp [paymentCount, List.countP_append, List.countP_cons]

theorem allocCount_le_rowCount (m : CsMap) (i : Nat) :
    allocCount m i ≤ rowCount m i := by
  refine List.countP_mono_left ?_
  intro r _ h
  simp [invAllocEq, invEq] at h ⊢
  exact h.1

/-! ## Scan characterisation -/

theorem scanBucket_found (amt : String) :
    ∀ (l : List CsRow) (i0 : Nat) (last : Option CsRow) (i : Nat) (r : CsRow),
      scanBucket amt l i0 last = ScanOutcome.found i r →
      ∃ j, l[j]? = some r ∧ i = i0 + j ∧ r.totalFee = amt ∧
        r.allocated = some false
  | [], _, _, _, _, h => by simp [scanBucket] at h
  | c :: t, i0, last, i, r, h => by
    by_cases hfee : c.totalFee = amt
    · cases halloc : c.allocated with
      | none => simp [scanBucket, hfee, halloc] at h
      | some b =>
        cases b with
        | true =>
          simp only [scanBucket, hfee, if_true, halloc] at h
          obtain ⟨j, hj, hi, hr⟩ := scanBucket_found amt t (i0 + 1) (some c) i r h
          exact ⟨j + 1, by simpa using hj, by omega, hr⟩
        | false =>
          simp only [scanBucket, hfee, if_true, halloc] at h
          cases h
          exact ⟨0, by simp, by omega, hfee, halloc⟩
    · simp only [scanBucket, hfee, if_false] at h
      obtain ⟨j, hj, hi, hr⟩ := scanBucket_found amt t (i0 + 1) (some c) i r h
      exact ⟨j + 1, by simpa using hj, by omega, hr⟩

theorem scanBucket_all_allocated (amt : String) :
    ∀ (l : List CsRow), l ≠ [] →
      (∀ r ∈ l, r.totalFee = amt → r.allocated = some true) →
      ∀ (i0 : Nat) (last : Option CsRow),
        ∃ pr, pr ∈ l ∧ scanBucket amt l i0 last = ScanOutcome.notFound (some pr)
  | [], hne, _ => absurd rfl hne
  | c :: t, _, hall => by
    intro i0 last
    by_cases ht : t = []
    · subst ht
      by_cases hfee : c.totalFee = amt
      · have := hall c (by simp) hfee
        exact ⟨c, by simp, by simp [scanBucket, hfee, this]⟩
      · exact ⟨c, by simp, by simp [scanBucket, hfee]⟩
    · have hall' : ∀ r ∈ t, r.totalFee = amt → r.allocated = some true :=
        fun r hr => hall r (List.mem_cons_of_mem c hr)
      obtain ⟨pr, hpr, heq⟩ := scanBucket_all_allocated amt t ht hall' (i0 + 1) (some c)
      by_cases hfee : c.totalFee = amt
      · have := hall c (by simp) hfee
        exact ⟨pr, List.mem_cons_of_mem c hpr, by simp [scanBucket, hfee, this, heq]⟩
      · exact ⟨pr, List.mem_cons_of_mem c hpr, by simp [scanBucket, hfee, heq]⟩

/-! ## Invariant preservation -/

theorem ExclInv_same (m : CsMap) (led led' : Ledger)
    (hp : led'.payments = led.payments)
    (hn : led'.nextInvoiceId = led.nextInvoiceId)
    (h : ExclInv m led) : ExclInv m led' := by
  obtain ⟨h1, h2, h3, h4⟩ := h
  exact ⟨fun i hi => hp ▸ h1 i hi, h2,
    fun i hi => h3 i (hn ▸ hi), fun i hi => hp ▸ h4 i (hn ▸ hi)⟩

/-- Appending a payment to a freshly issued invoice id (and bumping the
counter) preserves the invariant. -/
theorem ExclInv_fresh (m : CsMap) (led led' : Ledger) (q : Payment)
    (hp : led'.payments = led.payments ++ [q])
    (hq : q.invoiceId = led.nextInvoiceId)
    (hn : led'.nextInvoiceId = led.nextInvoiceId + 1)
    (h : ExclInv m led) : ExclInv m led' := by
  obtain ⟨h1, h2, h3, h4⟩ := h
  refine ⟨?_, h2, ?_, ?_⟩
  · intro i hi
    have hlt : ¬ led.nextInvoiceId ≤ i := by
      intro hle
      exact absurd (h3 i hle) (by omega)
    rw [hp, paymentCount_append]
    have : ¬ q.invoiceId = i := by omega
    simp [this]
    exact h1 i hi
  · intro i hi
    exact h3 i (by omega)
  · intro i hi
    rw [hp, paymentCount_append]
    have : ¬ q.invoiceId = i := by omega
    simp [this]
    exact h4 i (by omega)

theorem courtBranch_pres (st : RecState) (row : StripeRow) (pn d : String)
    (h : ExclInv st.csMap st.ledger) :
    ExclInv (courtBranch st row pn d).1.csMap (courtBranch st row pn d).1.ledger ∧
    ∀ j, rowCount (courtBranch st row pn d).1.csMap j = rowCount st.csMap j := by
  cases hb : st.bound with
  | none =>
    simp only [courtBranch, hb]
    exact ⟨ExclInv_same st.csMap st.ledger _ rfl rfl h, by simp⟩
  | some k =>
    cases hlk : mapLookup st.csMap k with
    | none =>
      simp only [courtBranch, hb, hlk, Option.getD_none, scanBucket]
      cases hpr : st.playerRow with
      | none => exact ⟨ExclInv_same st.csMap st.ledger _ rfl rfl h, by simp⟩
      | some pr => exact ⟨ExclInv_same st.csMap st.ledger _ rfl rfl h, by simp⟩
    | some l =>
      cases hscan : scanBucket row.amount l 0 st.playerRow with
      | err e last =>
        simp only [courtBranch, hb, hlk, Option.getD_some, hscan]
        exact ⟨ExclInv_same st.csMap st.ledger _ rfl rfl h, by simp⟩
      | notFound last =>
        simp only [courtBranch, hb, hlk, Option.getD_some, hscan]
        cases last with
        | none => exact ⟨ExclInv_same st.csMap st.ledger _ rfl rfl h, by simp⟩
        | some pr => exact ⟨ExclInv_same st.csMap st.ledger _ rfl rfl h, by simp⟩
      | found i r =>
        cases hinv : r.invoice with
        | none =>
          simp only [courtBranch, hb, hlk, Option.getD_some, hscan, hinv]
          exact ⟨ExclInv_same st.csMap st.ledger _ rfl rfl h, by simp⟩
        | some iv =>
          simp only [courtBranch, hb, hlk, Option.getD_some, hscan, hinv]
          obtain ⟨j0, hget, hij, hfee, halloc⟩ :=
            scanBucket_found row.amount l 0 st.playerRow i r hscan
          have hij0 : i = j0 := by omega
          subst hij0
          have hrmem : r ∈ allRows st.csMap :=
            mem_allRows_of_lookup st.csMap k l r hlk (List.getElem?_mem hget)
          have hrpos : 0 < rowCount st.csMap iv := by
            rw [rowCount, List.countP_pos_iff]
            exact ⟨r, hrmem, by simp [invEq, hinv]⟩
          obtain ⟨h1, h2, h3, h4⟩ := h
          have hivlt : iv < st.ledger.nextInvoiceId := by
            by_contra hge
            have := h3 iv (by omega)
            omega
          have hrowEq : ∀ j, rowCount
              (mapSetRow st.csMap k i
                { r with invoice := some iv, allocated := some true }) j =
              rowCount st.csMap j := by
            intro j
            have hc := countP_allRows_mapSetRow (invEq j) st.csMap k l i
              { r with invoice := some iv, allocated := some true } r hlk hget
            have heq : invEq j { r with invoice := some iv, allocated := some true }
                = invEq j r := by
              simp [invEq, hinv]
            rw [heq] at hc
            unfold rowCount
            omega
          have hallocEq : ∀ j, j ≠ iv → allocCount
              (mapSetRow st.csMap k i
                { r with invoice := some iv, allocated := some true }) j =
              allocCount st.csMap j := by
            intro j hj
            have hc := countP_allRows_mapSetRow (invAllocEq j) st.csMap k l i
              { r with invoice := some iv, allocated := some true } r hlk hget
            have e1 : invAllocEq j { r with invoice := some iv, allocated := some true }
                = false := by
              simp [invAllocEq]
              intro he
              exact absurd he.symm hj
            have e2 : invAllocEq j r = false := by
              simp [invAllocEq, halloc]
            rw [e1, e2] at hc
            simp at hc
            unfold allocCount
            omega
          have hallocIv : allocCount
              (mapSetRow st.csMap k i
                { r with invoice := some iv, allocated := some true }) iv =
              allocCount st.csMap iv + 1 := by
            have hc := countP_allRows_mapSetRow (invAllocEq iv) st.csMap k l i
              { r with invoice := some iv, allocated := some true } r hlk hget
            have e1 : invAllocEq iv { r with invoice := some iv, allocated := some true }
                = true := by
              simp [invAllocEq]
            have e2 : invAllocEq iv r = false := by
              simp [invAllocEq, halloc]
            rw [e1, e2] at hc
            simp at hc
            unfold allocCount
            omega
          refine ⟨⟨?_, ?_, ?_, ?_⟩, fun j => hrowEq j⟩
          · intro j hj
            rw [paymentCount_append]
            by_cases hji : j = iv
            · subst hji
              have hcond : (Payment.mk j row.amount d).invoiceId = j := rfl
              rw [if_pos hcond, hallocIv]
              have := h1 j hrpos
              omega
            · have hne : ¬ ((Payment.mk iv row.amount d).invoiceId = j) := by
                simp
                omega
              rw [if_neg hne]
              rw [hallocEq j hji]
              rw [hrowEq] at hj
              have := h1 j hj
              omega
          · intro j
            rw [hrowEq]
            exact h2 j
          · intro j hj
            have hj' : st.ledger.nextInvoiceId ≤ j := hj
            rw [hrowEq]
            exact h3 j hj'
          · intro j hj
            have hj' : st.ledger.nextInvoiceId ≤ j := hj
            rw [paymentCount_append]
            have hne : ¬ ((Payment.mk iv row.amount d).invoiceId = j) := by
              simp
              omega
            rw [if_neg hne]
            have := h4 j hj'
            omega

theorem CreateInvoiceAndPayment_pres (m : CsMap) (led : Ledger) (c : GCust)
    (acct : AcctPath) (amount fee net description txn_date : String)
    (h : ExclInv m led) :
    ExclInv m (CreateInvoiceAndPayment led c acct amount fee net description txn_date) := by
  exact ExclInv_fresh m led _ _ rfl rfl rfl h

theorem GetCustomer_pres (m : CsMap) (led : Ledger) (name email : String)
    (h : ExclInv m led) : ExclInv m (GetCustomer led name email).2 := by
  unfold GetCustomer
  cases hf : led.customers.find? (fun c => c.name = name) with
  | some c => exact h
  | none => exact ExclInv_same m led _ rfl rfl h

theorem refundCourtBranch_pres (env : Env) (st : RecState) (row : StripeRow)
    (d : String) (h : ExclInv st.csMap st.ledger) :
    ExclInv (refundCourtBranch env st row d).1.csMap
      (refundCourtBranch env st row d).1.ledger ∧
    ∀ j, rowCount (refundCourtBranch env st row d).1.csMap j =
      rowCount st.csMap j := by
  unfold refundCourtBranch
  cases hs : (match env.strptimeSession row.sessionMeta with
    | none => Except.ok ((none : Option String), (none : Option String))
    | some dt => refundSearch env dt row.amount (allRows st.csMap) (none, none)) with
  | error e =>
    exact ⟨h, fun j => rfl⟩
  | ok fees =>
    exact ⟨ExclInv_fresh st.csMap st.ledger _ _ rfl rfl rfl h, fun j => rfl⟩

theorem membershipBranch_pres (env : Env) (st : RecState) (row : StripeRow)
    (d : String) (h : ExclInv st.csMap st.ledger) :
    ExclInv (membershipBranch env st row d).1.csMap
      (membershipBranch env st row d).1.ledger ∧
    ∀ j, rowCount (membershipBranch env st row d).1.csMap j =
      rowCount st.csMap j := by
  unfold membershipBranch
  exact ⟨CreateInvoiceAndPayment_pres st.csMap _ _ _ _ _ _ _ _
    (GetCustomer_pres st.csMap st.ledger _ _ h), fun j => rfl⟩

theorem eventBranch_pres (st : RecState) (row : StripeRow) (pn d : String)
    (h : ExclInv st.csMap st.ledger) :
    ExclInv (eventBranch st row pn d).1.csMap (eventBranch st row pn d).1.ledger ∧
    ∀ j, rowCount (eventBranch st row pn d).1.csMap j = rowCount st.csMap j := by
  unfold eventBranch
  exact ⟨CreateInvoiceAndPayment_pres st.csMap _ _ _ _ _ _ _ _
    (GetCustomer_pres st.csMap st.ledger _ _ h), fun j => rfl⟩

theorem processStripeRow_pres (env : Env) (st : RecState) (row : StripeRow)
    (h : ExclInv st.csMap st.ledger) :
    ExclInv (processStripeRow env st row).1.csMap
      (processStripeRow env st row).1.ledger ∧
    ∀ j, rowCount (processStripeRow env st row).1.csMap j =
      rowCount st.csMap j := by
  unfold processStripeRow
  have hst0 : ∀ st0 : RecState, st0.csMap = st.csMap → st0.ledger = st.ledger →
      ExclInv st0.csMap st0.ledger ∧
      (∀ j, rowCount st0.csMap j = rowCount st.csMap j) := by
    intro st0 hm hl
    rw [hm, hl]
    exact ⟨h, fun j => rfl⟩
  cases hm : mapLookup st.csMap (inferPlayerName row) with
  | some l =>
    simp only [hm]
    cases hd : env.fromIso (firstField row.availableOn) with
    | none => exact ⟨h, fun j => rfl⟩
    | some d =>
      simp only [pyStrEqIntZero, Bool.false_eq_true, if_false]
      split
      · exact courtBranch_pres _ row _ d ⟨h.1, h.2.1, h.2.2.1, h.2.2.2⟩
      · split
        · exact ⟨ExclInv_same st.csMap st.ledger _ rfl rfl h, fun j => rfl⟩
        · split
          · split
            · exact refundCourtBranch_pres env _ row d h
            · exact ⟨ExclInv_same st.csMap st.ledger _ rfl rfl h, fun j => rfl⟩
          · split
            · exact membershipBranch_pres env _ row d h
            · split
              · exact eventBranch_pres _ row _ d h
              · exact ⟨h, fun j => rfl⟩
  | none =>
    simp only [hm]
    cases hd : env.fromIso (firstField row.availableOn) with
    | none => exact ⟨h, fun j => rfl⟩
    | some d =>
      simp only [pyStrEqIntZero, Bool.false_eq_true, if_false]
      split
      · exact courtBranch_pres _ row _ d h
      · split
        · exact ⟨ExclInv_same st.csMap st.ledger _ rfl rfl h, fun j => rfl⟩
        · split
          · split
            · exact refundCourtBranch_pres env _ row d h
            · exact ⟨ExclInv_same st.csMap st.ledger _ rfl rfl h, fun j => rfl⟩
          · split
            · exact membershipBranch_pres env _ row d h
            · split
              · exact eventBranch_pres _ row _ d h
              · exact ⟨h, fun j => rfl⟩

theorem ProcessStripePayments_pres (env : Env) :
    ∀ (rows : List StripeRow) (st : RecState), ExclInv st.csMap st.ledger →
      ExclInv (ProcessStripePayments env rows st).1.csMap
        (ProcessStripePayments env rows st).1.ledger ∧
      ∀ j, rowCount (ProcessStripePayments env rows st).1.csMap j =
        rowCount st.csMap j
  | [], st, h => ⟨h, fun j => rfl⟩
  | row :: rest, st, h => by
    have hstep := processStripeRow_pres env st row h
    unfold ProcessStripePayments
    cases hr : processStripeRow env st row with
    | mk st1 e =>
      rw [hr] at hstep
      cases e with
      | none =>
        have hrest := ProcessStripePayments_pres env rest st1 hstep.1
        exact ⟨hrest.1, fun j => (hrest.2 j).trans (hstep.2 j)⟩
      | some e => exact hstep

/-! ## Invariant establishment by the importer -/

theorem ExclInv_appendRaw (m : CsMap) (led : Ledger) (k : String) (row : CsRow)
    (hraw : row.invoice = none) (h : ExclInv m led) :
    ExclInv (mapAppendRow m k row) led := by
  obtain ⟨h1, h2, h3, h4⟩ := h
  have hrow : ∀ i, rowCount (mapAppendRow m k row) i = rowCount m i := by
    intro i
    unfold rowCount
    rw [countP_allRows_mapAppendRow]
    simp [invEq, hraw]
  have halloc : ∀ i, allocCount (mapAppendRow m k row) i = allocCount m i := by
    intro i
    unfold allocCount
    rw [countP_allRows_mapAppendRow]
    simp [invAllocEq, hraw]
  exact ⟨fun i hi => (halloc i).symm ▸ h1 i ((hrow i) ▸ hi),
    fun i => (hrow i) ▸ h2 i, fun i hi => (hrow i) ▸ h3 i hi, h4⟩

/-- Issuing a fresh invoice id to exactly one new row (no new payments)
preserves the invariant. -/
theorem ExclInv_newInvoice (m m' : CsMap) (led led' : Ledger)
    (hp : led'.payments = led.payments)
    (hn : led'.nextInvoiceId = led.nextInvoiceId + 1)
    (hrc : ∀ i, rowCount m' i =
      rowCount m i + (if i = led.nextInvoiceId then 1 else 0))
    (hac : ∀ i, allocCount m' i = allocCount m i)
    (h : ExclInv m led) : ExclInv m' led' := by
  obtain ⟨h1, h2, h3, h4⟩ := h
  refine ⟨?_, ?_, ?_, ?_⟩
  · intro i hi
    rw [hp, hac]
    by_cases hin : i = led.nextInvoiceId
    · have hz4 := h4 i (by omega)
      have hle := allocCount_le_rowCount m i
      have hz3 := h3 i (by omega)
      omega
    · rw [hrc i, if_neg hin] at hi
      exact h1 i (by omega)
  · intro i
    rw [hrc]
    by_cases hin : i = led.nextInvoiceId
    · rw [if_pos hin]
      have hz3 := h3 i (by omega)
      omega
    · rw [if_neg hin]
      have := h2 i
      omega
  · intro i hi
    rw [hn] at hi
    rw [hrc]
    have hin : ¬ i = led.nextInvoiceId := by omega
    rw [if_neg hin]
    have := h3 i (by omega)
    omega
  · intro i hi
    rw [hn] at hi
    rw [hp]
    exact h4 i (by omega)

theorem enterBacStep_pres (env : Env) (st : ImpState) (row : CsRow)
    (hraw : row.invoice = none ∧ row.allocated = none)
    (h : ExclInv st.csMap st.ledger) :
    ExclInv (enterBacStep env st row).1.csMap (enterBacStep env st row).1.ledger := by
  unfold enterBacStep
  by_cases hpn : row.playerFirst ++ " " ++ row.playerLast = ""
  · simp only [hpn, if_pos]
    exact h
  · simp only [hpn, if_neg, if_false]
    have happ := ExclInv_appendRaw st.csMap st.ledger
      (row.playerFirst ++ " " ++ row.playerLast) row hraw.1 h
    cases hd : env.fromIso row.bookedDate with
    | none => exact happ
    | some d =>
      cases hc : pyDecimal row.courtFee with
      | none => exact happ
      | some cv =>
        cases hl : pyDecimal row.lightFee with
        | none => exact happ
        | some lv =>
          by_cases hz : decimalIsZero cv && decimalIsZero lv
          · simp only [hz, if_pos]
            exact happ
          · simp only [hz, if_neg, Bool.not_eq_true, if_false]
            rw [mapUpdateLast_mapAppendRow]
            refine ExclInv_newInvoice st.csMap _ st.ledger _ rfl rfl ?_ ?_ h
            · intro i
              unfold rowCount
              rw [countP_allRows_mapAppendRow]
              by_cases hin : i = st.ledger.nextInvoiceId
              · simp [invEq, hin]
              · have hne : ¬ (st.ledger.nextInvoiceId = i) := fun he => hin he.symm
                simp [invEq, hin, hne]
            · intro i
              unfold allocCount
              rw [countP_allRows_mapAppendRow]
              simp [invAllocEq]

theorem runImport_pres (env : Env) :
    ∀ (rows : List CsRow) (st : ImpState),
      (∀ r ∈ rows, r.invoice = none ∧ r.allocated = none) →
      ExclInv st.csMap st.ledger →
      ExclInv (runImport env rows st).1.csMap (runImport env rows st).1.ledger
  | [], st, _, h => h
  | row :: rest, st, hraw, h => by
    have hstep := enterBacStep_pres env st row (hraw row (by simp)) h
    unfold runImport
    cases hr : enterBacStep env st row with
    | mk st1 e =>
      rw [hr] at hstep
      cases e with
      | none =>
        exact runImport_pres env rest st1
          (fun r hr2 => hraw r (List.mem_cons_of_mem row hr2)) hstep
      | some e => exact hstep

theorem EnterBacInvoices_pres (env : Env) (rows : List CsRow) (led : Ledger)
    (hraw : ∀ r ∈ rows, r.invoice = none ∧ r.allocated = none)
    (hpay : led.payments = []) :
    ExclInv (EnterBacInvoices env rows led).1.csMap
      (EnterBacInvoices env rows led).1.ledger := by
  unfold EnterBacInvoices
  refine runImport_pres env rows _ hraw ⟨?_, ?_, ?_, ?_⟩
  · intro i hi
    simp [rowCount, allRows] at hi
  · intro i
    simp [rowCount, allRows]
  · intro i _
    simp [rowCount, allRows]
  · intro i _
    simp [paymentCount, hpay]

/-! ## Concrete environment and inputs for witnesses and counterexamples -/

/-- A concrete `Env`: ISO dates parse to themselves, no session or booking
string parses, the membership regex extractions return their input. -/
def envTest : Env :=
  { fromIso := some, strptimeSession := fun _ => none,
    strptimeBooking := fun _ => none,
    reSubMembershipItem := id, reSubCustomerName := id, reSubCustomerEmail := id }

/-- A booking row with court fee 20.00 and light fee 5.00. -/
def bookRowJane : CsRow :=
  { playerFirst := "Jane", playerLast := "Doe", bookedDate := "2021-10-17",
    courtFee := "20.00", lightFee := "5.00", totalFee := "25.00",
    bookingDate := "2021-10-17", bookingTime := "10:30:00" }

/-- A booking row with both fees zero. -/
def bookRowZero : CsRow :=
  { playerFirst := "A", playerLast := "B", bookedDate := "2021-10-17",
    courtFee := "0", lightFee := "0", totalFee := "0",
    bookingDate := "2021-10-17", bookingTime := "10:30:00" }

/-- A court-booking settlement row matching `bookRowJane` by amount. -/
def courtPayJane : StripeRow :=
  { firstName := "Jane", lastName := "Doe",
    availableOn := "2021-10-20 12:00", amount := "25.00", fee := "1.20",
    net := "23.80", description := COURT_BOOKING, txnType := "charge" }

/-- A payout settlement row whose amount is the string "0". -/
def zeroPayoutRow : StripeRow :=
  { availableOn := "2021-10-20 12:00", amount := "0", txnType := "payout" }

/-- The refund row of the spec's scenario: fragment
"Coburg Tennis Club Memberships:Social, ...". -/
def refundSocialRow : StripeRow :=
  { availableOn := "2021-10-20 12:00", amount := "10.00", fee := "",
    net := "10.00", txnType := "refund",
    description := "REFUND FOR CHARGE (Coburg Tennis Club Memberships:Social, x)" }

/-! ## C3 — membership account routing -/

/-- C3 counterexample: the claim calls the keyword search case-insensitive,
but `GetMembershipAcct` uses `re.search` without `re.IGNORECASE`: on the
input "JUNIOR membership" the code falls through to Individual while the
claimed case-insensitive search (`GetMembershipAcctSpec`) selects Junior. -/
theorem GetMembershipAcct_not_case_insensitive :
    GetMembershipAcct "JUNIOR membership" = ["Income", "Memberships", "Individual"] ∧
    GetMembershipAcctSpec "JUNIOR membership" = ["Income", "Memberships", "Junior"] ∧
    GetMembershipAcct "JUNIOR membership" ≠ GetMembershipAcct "Junior membership" := by
  refine ⟨by decide, by decide, by decide⟩

/-- C3 (amended): membership routing is a **case-sensitive** substring
keyword search in the fixed order Junior, Social, Student, Senior, falling
back to Individual; it is a pure function of the category text. -/
theorem GetMembershipAcct_characterisation (s : String) :
    (containsSub "Junior" s = true →
      GetMembershipAcct s = ["Income", "Memberships", "Junior"]) ∧
    (containsSub "Junior" s = false → containsSub "Social" s = true →
      GetMembershipAcct s = ["Income", "Memberships", "Social"]) ∧
    (containsSub "Junior" s = false → containsSub "Social" s = false →
      containsSub "Student" s = true →
      GetMembershipAcct s = ["Income", "Memberships", "Student"]) ∧
    (containsSub "Junior" s = false → containsSub "Social" s = false →
      containsSub "Student" s = false → containsSub "Senior" s = true →
      GetMembershipAcct s = ["Income", "Memberships", "Senior"]) ∧
    (containsSub "Junior" s = false → containsSub "Social" s = false →
      containsSub "Student" s = false → containsSub "Senior" s = false →
      GetMembershipAcct s = ["Income", "Memberships", "Individual"]) := by
  unfold GetMembershipAcct
  refine ⟨?_, ?_, ?_, ?_, ?_⟩
  · intro h1
    simp [h1]
  · intro h1 h2
    simp [h1, h2]
  · intro h1 h2 h3
    simp [h1, h2, h3]
  · intro h1 h2 h3 h4
    simp [h1, h2, h3, h4]
  · intro h1 h2 h3 h4
    simp [h1, h2, h3, h4]

/-- Witness for the amended C3 theorem at concrete inputs. -/
theorem GetMembershipAcct_characterisation_witness :
    GetMembershipAcct "2021 Junior Half Year" = ["Income", "Memberships", "Junior"] ∧
    GetMembershipAcct "2021 Adult Half Year" = ["Income", "Memberships", "Individual"] := by
  refine ⟨(GetMembershipAcct_characterisation "2021 Junior Half Year").1 (by decide),
    (GetMembershipAcct_characterisation "2021 Adult Half Year").2.2.2.2
      (by decide) (by decide) (by decide) (by decide)⟩

/-! ## C8 — event account routing -/

/-- C8: event routing tries OpenCourtSessions, MensSocial, Girl,
Club Champ, Bingo in order, case-insensitively, falling back to the
fundraising sub-account "Club Events"; the two concrete inputs of the
claim route to MensSocial and Bingo respectively. -/
theorem GetEventAcct_characterisation :
    GetEventAcct "Coburg Tennis Club MensSocial Night" =
      ["Income", "Events", "MensSocial"] ∧
    GetEventAcct "Coburg Tennis Club Friday Bingo Night" =
      ["Income", "Fundraising", "Bingo"] ∧
    ∀ s,
      (containsCI "OpenCourtSessions" s = true →
        GetEventAcct s = ["Income", "Events", "Open Court Sessions"]) ∧
      (containsCI "OpenCourtSessions" s = false → containsCI "MensSocial" s = true →
        GetEventAcct s = ["Income", "Events", "MensSocial"]) ∧
      (containsCI "OpenCourtSessions" s = false → containsCI "MensSocial" s = false →
        containsCI "Girl" s = true →
        GetEventAcct s = ["Income", "Events", "Girl Lets Play"]) ∧
      (containsCI "OpenCourtSessions" s = false → containsCI "MensSocial" s = false →
        containsCI "Girl" s = false → containsCI "Club Champ" s = true →
        GetEventAcct s = ["Income", "Events", "Club Championships"]) ∧
      (containsCI "OpenCourtSessions" s = false → containsCI "MensSocial" s = false →
        containsCI "Girl" s = false → containsCI "Club Champ" s = false →
        containsCI "Bingo" s = true →
        GetEventAcct s = ["Income", "Fundraising", "Bingo"]) ∧
      (containsCI "OpenCourtSessions" s = false → containsCI "MensSocial" s = false →
        containsCI "Girl" s = false → containsCI "Club Champ" s = false →
        containsCI "Bingo" s = false →
        GetEventAcct s = ["Income", "Fundraising", "Club Events"]) := by
  refine ⟨by decide, by decide, ?_⟩
  intro s
  unfold GetEventAcct
  refine ⟨?_, ?_, ?_, ?_, ?_, ?_⟩
  · intro h1
    simp [h1]
  · intro h1 h2
    simp [h1, h2]
  · intro h1 h2 h3
    simp [h1, h2, h3]
  · intro h1 h2 h3 h4
    simp [h1, h2, h3, h4]
  · intro h1 h2 h3 h4 h5
    simp [h1, h2, h3, h4, h5]
  · intro h1 h2 h3 h4 h5
    simp [h1, h2, h3, h4, h5]

/-- Witness for C8 at a concrete no-keyword input. -/
theorem GetEventAcct_characterisation_witness :
    GetEventAcct "Sunday Picnic" = ["Income", "Fundraising", "Club Events"] :=
  ((GetEventAcct_characterisation.2.2 "Sunday Picnic").2.2.2.2.2
    (by decide) (by decide) (by decide) (by decide) (by decide))

/-! ## C9 — processor fee posting -/

/-- C9 counterexample: the claim says no fee posting is made when the
fee is zero **or** empty, but `RecordStripeFee` only checks Python
falsiness — the string "0" is truthy, so a fee of "0" still mutates the
transaction and appends a zero-valued fee posting. -/
theorem RecordStripeFee_zero_fee_posts :
    RecordStripeFee (MakeStripePayment "25.00" COURT_BOOKING "2021-10-20")
        "23.80" "0" ≠
      MakeStripePayment "25.00" COURT_BOOKING "2021-10-20" ∧
    (RecordStripeFee (MakeStripePayment "25.00" COURT_BOOKING "2021-10-20")
        "23.80" "0").splits =
      [{ acct := stripeAcct, value := "23.80", negated := false },
       { acct := stripeFeeAcct, value := "0", negated := false }] := by
  refine ⟨by decide, by decide⟩

/-- C9 (amended): the fee posting is attached exactly when the fee string
is non-empty (Python truthiness): an empty fee leaves the transaction
unchanged; any non-empty fee (including "0") rewrites the Stripe-account
splits to the net amount and appends one fee-expense posting. -/
theorem RecordStripeFee_behaviour (t : GTxn) (net fee : String) :
    (fee = "" → RecordStripeFee t net fee = t) ∧
    (fee ≠ "" →
      (RecordStripeFee t net fee).splits.length = t.splits.length + 1 ∧
      (RecordStripeFee t net fee).splits.getLast? =
        some { acct := stripeFeeAcct, value := fee, negated := false } ∧
      (RecordStripeFee t net fee).descr = t.descr) := by
  constructor
  · intro h
    simp [RecordStripeFee, h]
  · intro h
    refine ⟨?_, ?_, ?_⟩
    · simp [RecordStripeFee, h]
    · simp [RecordStripeFee, h]
    · simp [RecordStripeFee, h]

/-- Witness for the amended C9 theorem. -/
theorem RecordStripeFee_behaviour_witness :
    RecordStripeFee (MakeStripePayment "10.00" "d" "t") "9.50" "" =
      MakeStripePayment "10.00" "d" "t" ∧
    (RecordStripeFee (MakeStripePayment "10.00" "d" "t") "9.50" "0.50").splits.length =
      (MakeStripePayment "10.00" "d" "t").splits.length + 1 :=
  ⟨(RecordStripeFee_behaviour (MakeStripePayment "10.00" "d" "t") "9.50" "").1 rfl,
   ((RecordStripeFee_behaviour (MakeStripePayment "10.00" "d" "t") "9.50" "0.50").2
     (by decide)).1⟩

/-! ## C5 — the zero-amount skip never fires -/

/-- C5 is a code bug: the guard `if (amount == 0): continue` compares the
CSV string with the integer 0, which is never true in Python, so a row
whose amount is "0" is still classified and processed.  Here a payout row
with amount "0" produces a zero-valued transfer transaction instead of
being skipped. -/
theorem zero_amount_row_still_processed :
    (ProcessStripePayments envTest [zeroPayoutRow]
        { csMap := [], ledger := {} }).2 = none ∧
    (ProcessStripePayments envTest [zeroPayoutRow]
        { csMap := [], ledger := {} }).1.ledger.txns =
      [DoStripeTransfer "0" "2021-10-20"] ∧
    pyStrEqIntZero "0" = false := by
  refine ⟨by decide, by decide, rfl⟩

/-! ## C2 — zero-fee booking rows -/

/-- The joined player name always contains the separating space, so it is
never the empty string. -/
theorem playerName_ne_empty (a b : String) : a ++ " " ++ b ≠ "" := by
  intro h
  have hd := congrArg String.data h
  simp [String.data_append] at hd

/-- C2 counterexample: a booking row with both fees zero creates no
invoice, but it is **not** excluded from the allocation index — the
importer appends every row to its player-name bucket before the fee check,
so the zero-fee row still appears in bucket "A B". -/
theorem zero_fee_row_in_index :
    (EnterBacInvoices envTest [bookRowZero] {}).1.ledger.invoices = [] ∧
    mapLookup (EnterBacInvoices envTest [bookRowZero] {}).1.csMap "A B" =
      some [bookRowZero] ∧
    (EnterBacInvoices envTest [bookRowZero] {}).2 = none := by
  refine ⟨by decide, by decide, by decide⟩

/-- C2 (amended): for a booking row whose court and light fees both parse
to zero (and whose booked date parses), the importer creates no invoice
and leaves the ledger untouched, but the row is still appended — without
invoice reference or allocated flag — to its player-name bucket in the
allocation index. -/
theorem enterBacStep_zero_fees (env : Env) (st : ImpState) (row : CsRow)
    (d : String) (cv lv : Bool × Nat)
    (hd : env.fromIso row.bookedDate = some d)
    (hc : pyDecimal row.courtFee = some cv) (hcz : decimalIsZero cv = true)
    (hl : pyDecimal row.lightFee = some lv) (hlz : decimalIsZero lv = true) :
    enterBacStep env st row =
      ({ st with
          csMap :=
            mapAppendRow st.csMap (row.playerFirst ++ " " ++ row.playerLast) row },
        none) := by
  unfold enterBacStep
  rw [if_neg (playerName_ne_empty row.playerFirst row.playerLast)]
  rw [hd, hc, hl]
  simp only [hcz, hlz, Bool.and_self, if_pos]

/-- Witness for the amended C2 theorem: the concrete zero-fee row is
appended raw to bucket "A B" and the ledger is unchanged. -/
theorem enterBacStep_zero_fees_witness :
    enterBacStep envTest { csMap := [(NO_NAME_ENTRY, [])], ledger := {} }
        bookRowZero =
      ({ csMap := mapAppendRow [(NO_NAME_ENTRY, [])] "A B" bookRowZero,
         ledger := {} }, none) :=
  enterBacStep_zero_fees envTest { csMap := [(NO_NAME_ENTRY, [])], ledger := {} }
    bookRowZero "2021-10-17" (false, 0) (false, 0) rfl (by decide) rfl (by decide) rfl

/-! ## C4 — unresolved court allocation is logged, not raised -/

/-- C4: for a court-payment settlement row whose player has a (non-empty)
bucket in the allocation index containing no unallocated row with matching
total fee, the reconciler prints an unresolved-allocation diagnostic and
continues: no exception, no allocation-index change, no payment applied. -/
theorem court_no_match_logs_and_continues (env : Env) (st : RecState)
    (row : StripeRow) (d : String) (b : List CsRow)
    (hdesc : row.description = COURT_BOOKING)
    (hdate : env.fromIso (firstField row.availableOn) = some d)
    (hbucket : mapLookup st.csMap (inferPlayerName row) = some b)
    (hne : b ≠ [])
    (hnomatch : ∀ r ∈ b, r.totalFee = row.amount → r.allocated = some true) :
    (processStripeRow env st row).2 = none ∧
    (processStripeRow env st row).1.csMap = st.csMap ∧
    (processStripeRow env st row).1.ledger.payments = st.ledger.payments ∧
    ∃ msg, (processStripeRow env st row).1.logs = st.logs ++ [msg] := by
  obtain ⟨pr, hpr, hscan⟩ :=
    scanBucket_all_allocated row.amount b hne hnomatch 0 st.playerRow
  simp only [processStripeRow, hbucket, hdate, pyStrEqIntZero,
    Bool.false_eq_true, if_false, hdesc, if_true]
  simp only [courtBranch, hbucket, Option.getD_some, hscan]
  refine ⟨by trivial, by trivial, by trivial, ⟨_, by trivial⟩⟩

/-- The already-allocated Jane Doe row. -/
def bookRowJaneAlloc : CsRow :=
  { bookRowJane with invoice := some 0, allocated := some true }

/-- A reconciler state whose only bucket holds the allocated row. -/
def stAllocated : RecState :=
  { csMap := [("Jane Doe", [bookRowJaneAlloc])], ledger := {} }

/-- Witness for C4: a bucket holding only an already-allocated row of the
matching amount; the reconciler logs and continues. -/
theorem court_no_match_logs_and_continues_witness :
    (processStripeRow envTest stAllocated courtPayJane).2 = none ∧
    (processStripeRow envTest stAllocated courtPayJane).1.csMap =
      stAllocated.csMap ∧
    (processStripeRow envTest stAllocated courtPayJane).1.ledger.payments =
      stAllocated.ledger.payments ∧
    ∃ msg, (processStripeRow envTest stAllocated courtPayJane).1.logs =
      stAllocated.logs ++ [msg] :=
  court_no_match_logs_and_continues envTest stAllocated courtPayJane
    "2021-10-20" [bookRowJaneAlloc] rfl rfl (by decide) (by decide) (by decide)

/-! ## C10 — the stale `player_list` binding -/

/-- C10: in `ProcessStripePayments` the local `player_list` is assigned
only when the row's inferred name is a key of the index.  For a
court-payment row whose name has no bucket: with no prior binding the
handler raises `NameError` (after having already created the payment
transaction); with a stale binding from an earlier row it scans that other
player's bucket and applies the payment to whichever of its rows matches
the amount, marking that row allocated. -/
theorem court_unbound_player_list_behaviour (env : Env) (st : RecState)
    (row : StripeRow) (d : String)
    (hdesc : row.description = COURT_BOOKING)
    (hdate : env.fromIso (firstField row.availableOn) = some d)
    (hnb : mapLookup st.csMap (inferPlayerName row) = none) :
    (st.bound = none →
      (processStripeRow env st row).2 = some (PyErr.nameError "player_list") ∧
      (processStripeRow env st row).1.ledger.txns =
        st.ledger.txns ++ [MakeStripePayment row.amount row.description d]) ∧
    (∀ k l i r iv, st.bound = some k → mapLookup st.csMap k = some l →
      scanBucket row.amount l 0 st.playerRow = ScanOutcome.found i r →
      r.invoice = some iv →
      (processStripeRow env st row).2 = none ∧
      (processStripeRow env st row).1.ledger.payments =
        st.ledger.payments ++
          [{ invoiceId := iv, amount := row.amount, dateStr := d }] ∧
      (processStripeRow env st row).1.csMap =
        mapSetRow st.csMap k i
          { r with invoice := some iv, allocated := some true }) := by
  constructor
  · intro hb
    simp only [processStripeRow, hnb, hdate, pyStrEqIntZero,
      Bool.false_eq_true, if_false, hdesc, if_true]
    simp only [courtBranch, hb]
    exact ⟨by trivial, by rw [hdesc]⟩
  · intro k l i r iv hb hlk hscan hinv
    simp only [processStripeRow, hnb, hdate, pyStrEqIntZero,
      Bool.false_eq_true, if_false, hdesc, if_true]
    simp only [courtBranch, hb, hlk, Option.getD_some, hscan, hinv]
    exact ⟨by trivial, by trivial, by trivial⟩

/-- A booking row of another player, invoiced and unallocated. -/
def bookRowOther : CsRow :=
  { bookRowJane with
      playerFirst := "Other"
      playerLast := "Person"
      invoice := some 7
      allocated := some false }

/-- A state left by an earlier settlement row: `player_list` aliases the
"Other Person" bucket. -/
def stStale : RecState :=
  { csMap := [("Other Person", [bookRowOther])]
    ledger := {}
    bound := some "Other Person" }

/-- The row `bookRowOther` after the misdirected allocation. -/
def bookRowOtherAlloc : CsRow :=
  { bookRowOther with invoice := some 7, allocated := some true }

/-- Witness for C10: the stale binding receives Jane Doe's payment
(applied to Other Person's invoice 7), and with no binding at all the
handler raises `NameError`. -/
theorem court_unbound_player_list_behaviour_witness :
    ((processStripeRow envTest stStale courtPayJane).2 = none ∧
     (processStripeRow envTest stStale courtPayJane).1.ledger.payments =
       stStale.ledger.payments ++
         [{ invoiceId := 7, amount := "25.00", dateStr := "2021-10-20" }] ∧
     (processStripeRow envTest stStale courtPayJane).1.csMap =
       mapSetRow stStale.csMap "Other Person" 0 bookRowOtherAlloc) ∧
    (processStripeRow envTest { csMap := [], ledger := {} } courtPayJane).2 =
      some (PyErr.nameError "player_list") :=
  ⟨(court_unbound_player_list_behaviour envTest stStale courtPayJane
      "2021-10-20" rfl rfl (by decide)).2 "Other Person" [bookRowOther] 0
      bookRowOther 7 rfl (by decide) (by decide) rfl,
   ((court_unbound_player_list_behaviour envTest
      { csMap := [], ledger := {} } courtPayJane
      "2021-10-20" rfl rfl (by decide)).1 rfl).1⟩

/-! ## C6 — refund with a non-court fragment -/

/-- C6 counterexample: the fragment "Coburg Tennis Club Memberships:Social, x"
does **not** contain the membership marker `"Coburg Tennis Club:"` (the
colon must follow "Club" directly), so the reconciler routes the refund
through `GetEventAcct`, landing on Fundraising/Club Events — not on the
membership sub-account Social as the claim says.  The transaction is the
plain two-sided refund; no invoice or credit note is created. -/
theorem refund_membership_fragment_cex :
    (ProcessStripePayments envTest [refundSocialRow]
        { csMap := [], ledger := {} }).1.ledger.txns =
      [{ splits := [{ acct := stripeAcct, value := "10.00", negated := false },
                    { acct := ["Income", "Fundraising", "Club Events"],
                      value := "10.00", negated := true }],
         descr := "Refund", dateStr := "2021-10-20" }] ∧
    (["Income", "Fundraising", "Club Events"] : AcctPath) ≠
      ["Income", "Memberships", "Social"] ∧
    (ProcessStripePayments envTest [refundSocialRow]
        { csMap := [], ledger := {} }).1.ledger.invoices = [] ∧
    (ProcessStripePayments envTest [refundSocialRow]
        { csMap := [], ledger := {} }).2 = none := by
  refine ⟨by decide, by decide, by decide, by decide⟩

/-- C6 (amended): a refund row whose parenthesized fragment is not the
court-booking string and does not contain the membership marker
`"Coburg Tennis Club:"` — which the fragment
"Coburg Tennis Club Memberships:Social, ..." does not — is routed through
the event/fundraising table (`GetEventAcct`), and a plain two-sided refund
transaction is posted (clearing account increases by the amount, target
account decreases by it, description "Refund"); no invoice, credit note or
payment is created. -/
theorem refund_nonmember_fragment_plain_refund (env : Env) (st : RecState)
    (row : StripeRow) (d : String)
    (hstart : pyStartsWith REFUND_MARK row.description = true)
    (hncourt : row.description ≠ COURT_BOOKING)
    (hnpay : row.txnType ≠ "payout")
    (hfrag : extractRefundItem row.description ≠ COURT_BOOKING)
    (hnmem : containsSub MEMBERSHIP_MARK (extractRefundItem row.description) = false)
    (hdate : env.fromIso (firstField row.availableOn) = some d) :
    (processStripeRow env st row).2 = none ∧
    (processStripeRow env st row).1.ledger.txns =
      st.ledger.txns ++
        [{ splits := [{ acct := stripeAcct, value := row.amount, negated := false },
                      { acct := GetEventAcct (extractRefundItem row.description),
                        value := row.amount, negated := true }],
           descr := "Refund", dateStr := d }] ∧
    (processStripeRow env st row).1.ledger.invoices = st.ledger.invoices ∧
    (processStripeRow env st row).1.ledger.payments = st.ledger.payments := by
  cases hm : mapLookup st.csMap (inferPlayerName row) with
  | some l =>
    have hred : processStripeRow env st row =
        refundOtherBranch { st with bound := some (inferPlayerName row) } row
          (extractRefundItem row.description) d := by
      simp only [processStripeRow, hm, hdate, pyStrEqIntZero,
        Bool.false_eq_true, if_false]
      rw [if_neg hncourt, if_neg hnpay]
      simp only [hstart, if_true]
      rw [if_neg hfrag]
    rw [hred]
    simp only [refundOtherBranch, hnmem, Bool.false_eq_true, if_false]
    exact ⟨by trivial, by trivial, by trivial, by trivial⟩
  | none =>
    have hred : processStripeRow env st row =
        refundOtherBranch st row (extractRefundItem row.description) d := by
      simp only [processStripeRow, hm, hdate, pyStrEqIntZero,
        Bool.false_eq_true, if_false]
      rw [if_neg hncourt, if_neg hnpay]
      simp only [hstart, if_true]
      rw [if_neg hfrag]
    rw [hred]
    simp only [refundOtherBranch, hnmem, Bool.false_eq_true, if_false]
    exact ⟨by trivial, by trivial, by trivial, by trivial⟩

/-- Witness for the amended C6 theorem at the claim's own input. -/
theorem refund_nonmember_fragment_plain_refund_witness :
    (processStripeRow envTest { csMap := [], ledger := {} } refundSocialRow).2 =
      none ∧
    (processStripeRow envTest { csMap := [], ledger := {} }
        refundSocialRow).1.ledger.txns =
      ([] : List GTxn) ++
        [{ splits := [{ acct := stripeAcct, value := refundSocialRow.amount,
                        negated := false },
                      { acct := GetEventAcct
                          (extractRefundItem refundSocialRow.description),
                        value := refundSocialRow.amount, negated := true }],
           descr := "Refund", dateStr := "2021-10-20" }] ∧
    (processStripeRow envTest { csMap := [], ledger := {} }
        refundSocialRow).1.ledger.invoices = [] ∧
    (processStripeRow envTest { csMap := [], ledger := {} }
        refundSocialRow).1.ledger.payments = [] :=
  refund_nonmember_fragment_plain_refund envTest { csMap := [], ledger := {} }
    refundSocialRow "2021-10-20" (by decide) (by decide) (by decide)
    (by decide) (by decide) rfl

/-! ## C7 — refund fee attribution -/

/-- When every booking row parses and none matches the refund's timestamp
and amount, the bucket search leaves its accumulator untouched. -/
theorem refundSearch_nomatch (env : Env) (dt : Nat) (amt : String) :
    ∀ (l : List CsRow) (acc : Option String × Option String),
      (∀ r ∈ l, ∃ c,
        env.strptimeBooking (r.bookingDate ++ " " ++ r.bookingTime) = some c ∧
        ¬(c = dt ∧ r.totalFee = amt)) →
      refundSearch env dt amt l acc = Except.ok acc
  | [], acc, _ => rfl
  | r :: rest, acc, h => by
    obtain ⟨c, hc, hnc⟩ := h r (by simp)
    have ih := refundSearch_nomatch env dt amt rest acc
      (fun r2 hr2 => h r2 (List.mem_cons_of_mem r hr2))
    by_cases h1 : c = dt
    · by_cases h2 : r.totalFee = amt
      · exact absurd ⟨h1, h2⟩ hnc
      · simp [refundSearch, hc, h1, h2, ih]
    · simp [refundSearch, hc, h1, ih]

/-- When the bucket search returns a court/light pair, some booking row of
the index carries exactly those fees and the matching total fee. -/
theorem refundSearch_found (env : Env) (dt : Nat) (amt : String) :
    ∀ (l : List CsRow) (acc : Option String × Option String) (cf lf : String),
      refundSearch env dt amt l acc = Except.ok (some cf, some lf) →
      acc = (some cf, some lf) ∨
        ∃ r ∈ l, r.totalFee = amt ∧ r.courtFee = cf ∧ r.lightFee = lf
  | [], acc, cf, lf, h => by
    simp [refundSearch] at h
    exact Or.inl h
  | r :: rest, acc, cf, lf, h => by
    cases hp : env.strptimeBooking (r.bookingDate ++ " " ++ r.bookingTime) with
    | none =>
      rw [refundSearch, hp] at h
      exact absurd h (by simp)
    | some c =>
      rw [refundSearch, hp] at h
      by_cases h1 : c = dt
      · by_cases h2 : r.totalFee = amt
        · simp [h1, h2] at h
          have := refundSearch_found env dt amt rest
            (some r.courtFee, some r.lightFee) cf lf h
          cases this with
          | inl he =>
            right
            refine ⟨r, by simp, h2, ?_, ?_⟩
            · have := congrArg Prod.fst he
              simpa using this
            · have := congrArg Prod.snd he
              simpa using this
          | inr hex =>
            right
            obtain ⟨r2, hr2, h3⟩ := hex
            exact ⟨r2, List.mem_cons_of_mem r hr2, h3⟩
        · simp [h1, h2] at h
          have := refundSearch_found env dt amt rest acc cf lf h
          cases this with
          | inl he => exact Or.inl he
          | inr hex =>
            right
            obtain ⟨r2, hr2, h3⟩ := hex
            exact ⟨r2, List.mem_cons_of_mem r hr2, h3⟩
      · simp [h1] at h
        have := refundSearch_found env dt amt rest acc cf lf h
        cases this with
        | inl he => exact Or.inl he
        | inr hex =>
          right
          obtain ⟨r2, hr2, h3⟩ := hex
          exact ⟨r2, List.mem_cons_of_mem r hr2, h3⟩

/-- Behaviour of the court-booking refund handler: an unparsable session
description, or a parsed timestamp matching no booking row, attributes the
whole refund to court fee (single court-hire line, no light line); a
successful search splits the credit note into the matched row's original
court and light fees. -/
theorem refundCourtBranch_spec (env : Env) (st : RecState) (row : StripeRow)
    (d : String) (hamt : row.amount ≠ "") :
    (env.strptimeSession row.sessionMeta = none →
      (refundCourtBranch env st row d).2 = none ∧
      (refundCourtBranch env st row d).1.ledger.invoices =
        st.ledger.invoices ++
          [{ id := st.ledger.nextInvoiceId, customer := "Book A Court",
             creditNote := true,
             entries := [{ descr := "Court Hire Refund", price := row.amount,
                           acct := courtHireAcct }],
             postedTo := some (receivablesAcct, d) }]) ∧
    (∀ dt, env.strptimeSession row.sessionMeta = some dt →
      (∀ r ∈ allRows st.csMap, ∃ c,
        env.strptimeBooking (r.bookingDate ++ " " ++ r.bookingTime) = some c ∧
        ¬(c = dt ∧ r.totalFee = row.amount)) →
      (refundCourtBranch env st row d).2 = none ∧
      (refundCourtBranch env st row d).1.ledger.invoices =
        st.ledger.invoices ++
          [{ id := st.ledger.nextInvoiceId, customer := "Book A Court",
             creditNote := true,
             entries := [{ descr := "Court Hire Refund", price := row.amount,
                           acct := courtHireAcct }],
             postedTo := some (receivablesAcct, d) }]) ∧
    (∀ dt cf lf, env.strptimeSession row.sessionMeta = some dt →
      refundSearch env dt row.amount (allRows st.csMap) (none, none) =
        Except.ok (some cf, some lf) →
      cf ≠ "" → lf ≠ "" →
      (refundCourtBranch env st row d).2 = none ∧
      (refundCourtBranch env st row d).1.ledger.invoices =
        st.ledger.invoices ++
          [{ id := st.ledger.nextInvoiceId, customer := "Book A Court",
             creditNote := true,
             entries := [{ descr := "Court Hire Refund", price := cf,
                           acct := courtHireAcct },
                         { descr := "Light Hire Refund", price := lf,
                           acct := lightHireAcct }],
             postedTo := some (receivablesAcct, d) }] ∧
      ∃ r ∈ allRows st.csMap, r.totalFee = row.amount ∧
        r.courtFee = cf ∧ r.lightFee = lf) := by
  refine ⟨?_, ?_, ?_⟩
  · intro hs
    simp only [refundCourtBranch, hs]
    refine ⟨by trivial, ?_⟩
    simp [pyTruthy, hamt]
  · intro dt hs hnom
    have hsearch := refundSearch_nomatch env dt row.amount (allRows st.csMap)
      (none, none) hnom
    simp only [refundCourtBranch, hs, hsearch]
    refine ⟨by trivial, ?_⟩
    simp [pyTruthy, hamt]
  · intro dt cf lf hs hsearch hcf hlf
    have hex := refundSearch_found env dt row.amount (allRows st.csMap)
      (none, none) cf lf hsearch
    have hex2 : ∃ r ∈ allRows st.csMap, r.totalFee = row.amount ∧
        r.courtFee = cf ∧ r.lightFee = lf := by
      cases hex with
      | inl he => simp at he
      | inr h2 => exact h2
    simp only [refundCourtBranch, hs, hsearch]
    refine ⟨by trivial, ?_, hex2⟩
    simp [pyTruthy, hcf, hlf]

/-- C7: a court-booking refund row whose session metadata fails to parse,
or whose parsed timestamp and amount match no booking row in any bucket,
attributes the entire amount to court fee — the credit note has a single
court-hire refund line for the full amount and no light line; when a row
does match, the credit note carries that row's original court-fee and
light-fee amounts. -/
theorem refund_court_fee_attribution (env : Env) (st : RecState)
    (row : StripeRow) (d : String)
    (hstart : pyStartsWith REFUND_MARK row.description = true)
    (hncourt : row.description ≠ COURT_BOOKING)
    (hnpay : row.txnType ≠ "payout")
    (hitem : extractRefundItem row.description = COURT_BOOKING)
    (hdate : env.fromIso (firstField row.availableOn) = some d)
    (hamt : row.amount ≠ "") :
    (env.strptimeSession row.sessionMeta = none →
      (processStripeRow env st row).2 = none ∧
      (processStripeRow env st row).1.ledger.invoices =
        st.ledger.invoices ++
          [{ id := st.ledger.nextInvoiceId, customer := "Book A Court",
             creditNote := true,
             entries := [{ descr := "Court Hire Refund", price := row.amount,
                           acct := courtHireAcct }],
             postedTo := some (receivablesAcct, d) }]) ∧
    (∀ dt, env.strptimeSession row.sessionMeta = some dt →
      (∀ r ∈ allRows st.csMap, ∃ c,
        env.strptimeBooking (r.bookingDate ++ " " ++ r.bookingTime) = some c ∧
        ¬(c = dt ∧ r.totalFee = row.amount)) →
      (processStripeRow env st row).2 = none ∧
      (processStripeRow env st row).1.ledger.invoices =
        st.ledger.invoices ++
          [{ id := st.ledger.nextInvoiceId, customer := "Book A Court",
             creditNote := true,
             entries := [{ descr := "Court Hire Refund", price := row.amount,
                           acct := courtHireAcct }],
             postedTo := some (receivablesAcct, d) }]) ∧
    (∀ dt cf lf, env.strptimeSession row.sessionMeta = some dt →
      refundSearch env dt row.amount (allRows st.csMap) (none, none) =
        Except.ok (some cf, some lf) →
      cf ≠ "" → lf ≠ "" →
      (processStripeRow env st row).2 = none ∧
      (processStripeRow env st row).1.ledger.invoices =
        st.ledger.invoices ++
          [{ id := st.ledger.nextInvoiceId, customer := "Book A Court",
             creditNote := true,
             entries := [{ descr := "Court Hire Refund", price := cf,
                           acct := courtHireAcct },
                         { descr := "Light Hire Refund", price := lf,
                           acct := lightHireAcct }],
             postedTo := some (receivablesAcct, d) }] ∧
      ∃ r ∈ allRows st.csMap, r.totalFee = row.amount ∧
        r.courtFee = cf ∧ r.lightFee = lf) := by
  cases hm : mapLookup st.csMap (inferPlayerName row) with
  | some l =>
    have hred : processStripeRow env st row =
        refundCourtBranch env { st with bound := some (inferPlayerName row) }
          row d := by
      simp only [processStripeRow, hm, hdate, pyStrEqIntZero,
        Bool.false_eq_true, if_false]
      rw [if_neg hncourt, if_neg hnpay]
      simp only [hstart, if_true]
      rw [if_pos hitem]
    rw [hred]
    exact refundCourtBranch_spec env
      { st with bound := some (inferPlayerName row) } row d hamt
  | none =>
    have hred : processStripeRow env st row =
        refundCourtBranch env st row d := by
      simp only [processStripeRow, hm, hdate, pyStrEqIntZero,
        Bool.false_eq_true, if_false]
      rw [if_neg hncourt, if_neg hnpay]
      simp only [hstart, if_true]
      rw [if_pos hitem]
    rw [hred]
    exact refundCourtBranch_spec env st row d hamt

/-- A court-booking refund row with unparsable session metadata. -/
def refundCourtRow : StripeRow :=
  { availableOn := "2021-10-20 12:00", amount := "25.00", fee := "1.20",
    net := "23.80", txnType := "refund", sessionMeta := "garbage",
    description := "REFUND FOR CHARGE (Court booking at Coburg Tennis Club)" }

/-- Witness for C7: under `envTest` the session string does not parse, so
the whole 25.00 goes to a single court-hire refund line. -/
theorem refund_court_fee_attribution_witness :
    (processStripeRow envTest { csMap := [], ledger := {} } refundCourtRow).2 =
      none ∧
    (processStripeRow envTest { csMap := [], ledger := {} }
        refundCourtRow).1.ledger.invoices =
      ([] : List GInvoice) ++
        [{ id := 0, customer := "Book A Court", creditNote := true,
           entries := [{ descr := "Court Hire Refund", price := "25.00",
                         acct := courtHireAcct }],
           postedTo := some (receivablesAcct, "2021-10-20") }] :=
  (refund_court_fee_attribution envTest { csMap := [], ledger := {} }
    refundCourtRow "2021-10-20" (by decide) (by decide) (by decide)
    (by decide) rfl (by decide)).1 rfl

/-! ## C1 — allocation is exclusive -/

/-- C1: over any run of the two phases — import any raw booking rows into
a fresh ledger, then reconcile any settlement rows against the produced
index — at most one payment is ever applied to a given booking invoice.
The court handler only pays a bucket row whose total fee matches and whose
allocated flag is false, immediately sets the flag, and the flag is never
cleared, so a second matching settlement row cannot hit the same
invoice. -/
theorem allocation_exclusive (env : Env) (csRows : List CsRow)
    (stripeRows : List StripeRow) (led0 : Ledger)
    (hraw : ∀ r ∈ csRows, r.invoice = none ∧ r.allocated = none)
    (hpay : led0.payments = [])
    (i : Nat)
    (hrow : hasRowInvoice (EnterBacInvoices env csRows led0).1.csMap i = true) :
    paymentCount (runBoth env csRows stripeRows led0).1.ledger.payments i ≤ 1 := by
  have himp := EnterBacInvoices_pres env csRows led0 hraw hpay
  have hrec := ProcessStripePayments_pres env stripeRows
    { csMap := (EnterBacInvoices env csRows led0).1.csMap,
      ledger := (EnterBacInvoices env csRows led0).1.ledger } himp
  have hpos : 0 < rowCount (EnterBacInvoices env csRows led0).1.csMap i := by
    rw [rowCount, List.countP_pos_iff]
    rw [hasRowInvoice, List.any_eq_true] at hrow
    exact hrow
  obtain ⟨⟨f1, f2, f3, f4⟩, hcnt⟩ := hrec
  show paymentCount (ProcessStripePayments env stripeRows
      { csMap := (EnterBacInvoices env csRows led0).1.csMap,
        ledger := (EnterBacInvoices env csRows led0).1.ledger }).1.ledger.payments
      i ≤ 1
  have hposF : 0 < rowCount (ProcessStripePayments env stripeRows
      { csMap := (EnterBacInvoices env csRows led0).1.csMap,
        ledger := (EnterBacInvoices env csRows led0).1.ledger }).1.csMap i := by
    rw [hcnt i]
    exact hpos
  have h1 := f1 i hposF
  have h2 := f2 i
  have hle := allocCount_le_rowCount (ProcessStripePayments env stripeRows
      { csMap := (EnterBacInvoices env csRows led0).1.csMap,
        ledger := (EnterBacInvoices env csRows led0).1.ledger }).1.csMap i
  omega

/-- Witness for C1: one booking row and two settlement rows that both
match its amount — the second is not applied, so invoice 0 receives at
most one payment. -/
theorem allocation_exclusive_witness :
    hasRowInvoice (EnterBacInvoices envTest [bookRowJane] {}).1.csMap 0 = true ∧
    paymentCount (runBoth envTest [bookRowJane] [courtPayJane, courtPayJane]
        {}).1.ledger.payments 0 ≤ 1 :=
  ⟨by decide,
   allocation_exclusive envTest [bookRowJane] [courtPayJane, courtPayJane] {}
     (by decide) rfl 0 (by decide)⟩
